import Mathlib

/-!
# CoDiPack: the unary expression template (`include/unaryExpression.tpp`)

A shallow embedding of the expression node that `unaryExpression.tpp` generates
for one operation `NAME`, together with the two evaluation paths it offers: the
live path over node objects (`getValue`, `calcGradient`, `pushPassive`) and the
offline path over serialized buffers (`static getValue`, `evalAdjoint`,
`evalAdjointOffset`, `exchangeActiveType`, `evalAdjoint2`).

Conventions of the embedding.

* `Real` is the template parameter `Real`; the definitions use only its
  multiplication, exactly as the source does.
* A `const T*` buffer is the list of its entries.  `Real* adjointValues` is
  written by the offline path, so functions that receive it return the new
  buffer.
* `Data& data` is written by `calcGradient`, so `calcGradient` returns the new
  `Data`.  `pushPassive` is a `const` member without a context argument; the
  store it writes to is the ambient `Tape`, passed explicitly.
* The template parameter `A` (the operand) is known to the template only
  through the members it calls.  They are collected in `Expression` (members of
  an object) and `StaticExpression` (static members of the type).
-/

namespace codi

/-- The names `unaryExpression.tpp` expects from the including file, for one
operation `NAME`, as they act on values of type `Real`.

* `FUNC` is `FUNCTION`, "the normal name of that function e.g. 'operator -' or
  'sin'" (line 59).
* `PRIMAL_CALL` is `PRIMAL_FUNCTION`, "a function which can call the primal
  operator" (line 60).
* `GRADIENT_FUNC` is `gradNAME`, which "the user needs to define" (lines 40-42,
  61).
* `DERIVATIVE_FUNC` is the name used on line 170.  The file neither defines it
  nor lists it among the names the user has to provide, so it is a parameter
  of its own. -/
structure Bindings (Real : Type) where
  FUNC : Real → Real
  PRIMAL_CALL : Real → Real
  GRADIENT_FUNC : Real → Real → Real
  DERIVATIVE_FUNC : Real → Real → Real

/-- The members of an operand object `a_` of type `A` that the node calls:
`a_.getValue()`, `a_.calcGradient(data, multiplier)` and
`a_.pushPassive(passive)`. -/
structure Expression (Real PassiveReal Data Tape A : Type) where
  getValue : A → Real
  calcGradient : A → Data → Real → Data
  pushPassive : A → PassiveReal → Tape → Tape

/-- The static members of an operand type `A` that the node calls:
`A::getValue<IndexType, offset, passiveOffset>(indices, passiveValues, primalValues)`,
`A::evalAdjointOffset<IndexType, offset, passiveOffset>(seed, indices, passiveValues, primalValues, adjointValues)`
and `A::exchangeActiveType<NewActiveType, NewGradientData, activeOffset, passiveOffset>(primalValues, gradientData, passiveValues)`,
whose result type is `B`.  The first two arguments of each field are the two
offsets. -/
structure StaticExpression (Real PassiveReal IndexType NewGradientData B : Type) where
  getValue : Nat → Nat → List IndexType → List PassiveReal → List Real → Real
  evalAdjointOffset : Nat → Nat → Real → List IndexType → List PassiveReal → List Real →
    List Real → List Real
  exchangeActiveType : Nat → Nat → List Real → List NewGradientData → List PassiveReal → B

/-- The node `struct OP` (lines 75-81): the operand `a_` held by value and the
precomputed `result_`.  The operation the node stands for is part of its type,
as in the source, where every inclusion of the template declares a struct of
its own. -/
structure OP (Real : Type) (b : Bindings Real) (A : Type) where
  a_ : A
  result_ : Real

section Node

variable {Real PassiveReal Data Tape IndexType NewGradientData A B : Type}
variable {b : Bindings Real}

/-- The constructor `OP(const Expression<Real, A>& a)` (lines 96-98):
`a_(a.cast()), result_(PRIMAL_CALL(a.getValue()))`. -/
def OP.construct (b : Bindings Real) (E : Expression Real PassiveReal Data Tape A) (a : A) :
    OP Real b A :=
  OP.mk a (b.PRIMAL_CALL (E.getValue a))

/-- The overload `FUNC(const codi::Expression<Real, A>& a)` (lines 189-192):
`return codi::OP<Real, A>(a.cast())`. -/
def FUNC (b : Bindings Real) (E : Expression Real PassiveReal Data Tape A) (a : A) :
    OP Real b A :=
  OP.construct b E a

/-- The member `calcGradient(Data& data)` (lines 109-112):
`a_.calcGradient(data, GRADIENT_FUNC(a_.getValue(), result_))`. -/
def OP.calcGradientNoMultiplier (E : Expression Real PassiveReal Data Tape A)
    (self : OP Real b A) (data : Data) : Data :=
  E.calcGradient self.a_ data (b.GRADIENT_FUNC (E.getValue self.a_) self.result_)

/-- The member `calcGradient(Data& data, const Real& multiplier)` (lines 124-127):
`a_.calcGradient(data, GRADIENT_FUNC(a_.getValue(), result_)*multiplier)`. -/
def OP.calcGradient [Mul Real] (E : Expression Real PassiveReal Data Tape A)
    (self : OP Real b A) (data : Data) (multiplier : Real) : Data :=
  E.calcGradient self.a_ data (b.GRADIENT_FUNC (E.getValue self.a_) self.result_ * multiplier)

/-- The member `getValue()` (lines 134-136): `return result_`. -/
def OP.getValue (self : OP Real b A) : Real :=
  self.result_

/-- The member `pushPassive(const PassiveReal& passive)` (lines 174-176):
`a_.pushPassive(passive)`. -/
def OP.pushPassive (E : Expression Real PassiveReal Data Tape A)
    (self : OP Real b A) (passive : PassiveReal) (tape : Tape) : Tape :=
  E.pushPassive self.a_ passive tape

/-- The node as an expression: the three members above, so that a node can be
the operand of another node. -/
def OP.expression [Mul Real] (b : Bindings Real) (E : Expression Real PassiveReal Data Tape A) :
    Expression Real PassiveReal Data Tape (OP Real b A) :=
  Expression.mk OP.getValue (OP.calcGradient E) (OP.pushPassive E)

/-- The static member `exchangeActiveType<NewActiveType, NewGradientData, activeOffset, passiveOffset>`
(lines 138-145): a node of the same operation constructed over the operand's
`exchangeActiveType` at the same offsets and buffers.  `EB` holds the members
of the exchanged operand, which the constructor calls. -/
def OP.exchangeActiveType (b : Bindings Real)
    (S : StaticExpression Real PassiveReal IndexType NewGradientData B)
    (EB : Expression Real PassiveReal Data Tape B) (activeOffset passiveOffset : Nat)
    (primalValues : List Real) (gradientData : List NewGradientData)
    (passiveValues : List PassiveReal) : OP Real b B :=
  OP.construct b EB (S.exchangeActiveType activeOffset passiveOffset primalValues gradientData
    passiveValues)

/-- The static member `evalAdjoint2` (lines 147-151):
`auto newExpr = exchangeActiveType<NewActiveType, NewGradientData, 0, 0>(primalValues, gradientData, passiveValues);`
`newExpr.calcGradient(gradient, seed);`. -/
def OP.evalAdjoint2 [Mul Real] (b : Bindings Real)
    (S : StaticExpression Real PassiveReal IndexType NewGradientData B)
    (EB : Expression Real PassiveReal Data Tape B) (gradient : Data) (seed : Real)
    (primalValues : List Real) (gradientData : List NewGradientData)
    (passiveValues : List PassiveReal) : Data :=
  let newExpr : OP Real b B :=
    OP.exchangeActiveType b S EB 0 0 primalValues gradientData passiveValues
  OP.calcGradient EB newExpr gradient seed

/-- The static member `getValue<IndexType, offset, passiveOffset>` (lines 153-158):
`aPrimal = A::getValue<IndexType, offset, passiveOffset>(indices, passiveValues, primalValues);`
`return FUNC(aPrimal);`. -/
def OP.getValue_static (b : Bindings Real)
    (S : StaticExpression Real PassiveReal IndexType NewGradientData B)
    (offset passiveOffset : Nat) (indices : List IndexType) (passiveValues : List PassiveReal)
    (primalValues : List Real) : Real :=
  let aPrimal := S.getValue offset passiveOffset indices passiveValues primalValues
  b.FUNC aPrimal

/-- The static member `evalAdjointOffset<IndexType, offset, passiveOffset>`
(lines 165-172):
`aPrimal = A::getValue<IndexType, offset, passiveOffset>(indices, passiveValues, primalValues);`
`resPrimal = FUNC(aPrimal);`
`aJac = DERIVATIVE_FUNC(aPrimal, resPrimal) * seed;`
`A::evalAdjointOffset<IndexType, offset, passiveOffset>(aJac, indices, passiveValues, primalValues, adjointValues);`. -/
def OP.evalAdjointOffset [Mul Real] (b : Bindings Real)
    (S : StaticExpression Real PassiveReal IndexType NewGradientData B)
    (offset passiveOffset : Nat) (seed : Real) (indices : List IndexType)
    (passiveValues : List PassiveReal) (primalValues : List Real) (adjointValues : List Real) :
    List Real :=
  let aPrimal := S.getValue offset passiveOffset indices passiveValues primalValues
  let resPrimal := b.FUNC aPrimal
  let aJac := b.DERIVATIVE_FUNC aPrimal resPrimal * seed
  S.evalAdjointOffset offset passiveOffset aJac indices passiveValues primalValues adjointValues

/-- An actual argument of a call of `evalAdjointOffset`, by its C++ type:
`const Real&`, `const IndexType*`, `const PassiveReal*`, and `const Real*` or
`Real*`. -/
inductive Argument (Real PassiveReal IndexType : Type) where
  | real : Real → Argument Real PassiveReal IndexType
  | indexBuffer : List IndexType → Argument Real PassiveReal IndexType
  | passiveBuffer : List PassiveReal → Argument Real PassiveReal IndexType
  | realBuffer : List Real → Argument Real PassiveReal IndexType

/-- A call `evalAdjointOffset<IndexType, offset, passiveOffset>(arguments)`.
The only declaration of `evalAdjointOffset` (line 166) has the five parameters
`(seed, indices, passiveValues, primalValues, adjointValues)`, none with a
default argument, and arguments bind by position.  The call has a result only
when five arguments of these types are given. -/
def OP.evalAdjointOffset_call [Mul Real] (b : Bindings Real)
    (S : StaticExpression Real PassiveReal IndexType NewGradientData B)
    (offset passiveOffset : Nat) :
    List (Argument Real PassiveReal IndexType) → Option (List Real)
  | [.real seed, .indexBuffer indices, .passiveBuffer passiveValues, .realBuffer primalValues,
      .realBuffer adjointValues] =>
    some (OP.evalAdjointOffset b S offset passiveOffset seed indices passiveValues primalValues
      adjointValues)
  | _ => none

set_option linter.unusedVariables false in
/-- The static member `evalAdjoint<IndexType>` (lines 160-163), whose body is
`evalAdjointOffset<IndexType, 0, 0>(seed, indices, primalValues, adjointValues);`:
the four arguments of the source, in the order of the source. -/
def OP.evalAdjoint [Mul Real] (b : Bindings Real)
    (S : StaticExpression Real PassiveReal IndexType NewGradientData B)
    (seed : Real) (indices : List IndexType) (passiveValues : List PassiveReal)
    (primalValues : List Real) (adjointValues : List Real) : Option (List Real) :=
  OP.evalAdjointOffset_call b S 0 0
    [.real seed, .indexBuffer indices, .realBuffer primalValues, .realBuffer adjointValues]

/-- The static members of the node, so that the node type can be the operand
type of another node.  `evalAdjointOffset` and `getValue` are the node's own;
`exchangeActiveType` returns a node over the exchanged operand. -/
def OP.staticExpression [Mul Real] (b : Bindings Real)
    (S : StaticExpression Real PassiveReal IndexType NewGradientData B)
    (EB : Expression Real PassiveReal Data Tape B) :
    StaticExpression Real PassiveReal IndexType NewGradientData (OP Real b B) :=
  StaticExpression.mk (OP.getValue_static b S) (OP.evalAdjointOffset b S)
    (OP.exchangeActiveType b S EB)

end Node

/-! ## Nested nodes

`f_n(... f_1(x) ...)` has the type `OP_n<Real, ... OP_1<Real, L> ...>`.  A chain
is given by the list of its operations, outermost first. -/

section Chain

variable {Real PassiveReal Data Tape IndexType NewGradientData L LB : Type}

/-- The type of a chain of unary nodes over a leaf of type `L`. -/
def ChainType (Real L : Type) : List (Bindings Real) → Type
  | [] => L
  | b :: bs => OP Real b (ChainType Real L bs)

/-- The members of a chain: those of the leaf, wrapped once per node. -/
def chainExpression [Mul Real] (leaf : Expression Real PassiveReal Data Tape L) :
    (bs : List (Bindings Real)) → Expression Real PassiveReal Data Tape (ChainType Real L bs)
  | [] => leaf
  | b :: bs => OP.expression b (chainExpression leaf bs)

/-- The expression `f_n(... f_1(x) ...)`: every node is built by its `FUNC`
overload from the chain below it. -/
def chainBuild [Mul Real] (leaf : Expression Real PassiveReal Data Tape L) (x : L) :
    (bs : List (Bindings Real)) → ChainType Real L bs
  | [] => x
  | b :: bs => FUNC b (chainExpression leaf bs) (chainBuild leaf x bs)

/-- The static members of a chain type: those of the leaf type, wrapped once
per node.  `LB` is the leaf type after `exchangeActiveType`. -/
def chainStatic [Mul Real]
    (leafS : StaticExpression Real PassiveReal IndexType NewGradientData LB)
    (leafB : Expression Real PassiveReal Data Tape LB) :
    (bs : List (Bindings Real)) →
      StaticExpression Real PassiveReal IndexType NewGradientData (ChainType Real LB bs)
  | [] => leafS
  | b :: bs => OP.staticExpression b (chainStatic leafS leafB bs) (chainExpression leafB bs)

/-- The intermediate value `v_n` of a chain over a leaf of value `v0`, in the
words of the chain rule: `v_0 = x.value` and `v_i = f_i(v_(i-1))`, where `f_i`
is the primal call of the `i`-th node. -/
def chainValue : List (Bindings Real) → Real → Real
  | [], v0 => v0
  | b :: bs, v0 => b.PRIMAL_CALL (chainValue bs v0)

/-- The local derivatives `df_i/da` evaluated at `(v_(i-1), v_i)`, for
`i = n, ..., 1`. -/
def chainPartials : List (Bindings Real) → Real → List Real
  | [], _ => []
  | b :: bs, v0 =>
    b.GRADIENT_FUNC (chainValue bs v0) (chainValue (b :: bs) v0) :: chainPartials bs v0

/-- A point of the backward pass through a chain: the node whose
`calcGradient` is being called and the multiplier it is called with. -/
structure Frame (Real L : Type) where
  ops : List (Bindings Real)
  node : ChainType Real L ops
  multiplier : Real

/-- One forwarding step (line 126): a node calls `calcGradient` of its operand
with `GRADIENT_FUNC(a_.getValue(), result_)*multiplier`.  A leaf forwards
nothing. -/
def Frame.forward [Mul Real] (leaf : Expression Real PassiveReal Data Tape L) :
    Frame Real L → Option (Frame Real L)
  | ⟨[], _, _⟩ => none
  | ⟨b :: bs, node, multiplier⟩ =>
    some ⟨bs, node.a_,
      b.GRADIENT_FUNC ((chainExpression leaf bs).getValue node.a_) node.result_ * multiplier⟩

/-- The frame reached after `k` forwarding steps, if the recursion goes that
deep. -/
def Frame.steps [Mul Real] (leaf : Expression Real PassiveReal Data Tape L) :
    Nat → Frame Real L → Option (Frame Real L)
  | 0, f => some f
  | k + 1, f => (Frame.forward leaf f).bind (Frame.steps leaf k)

/-- The effect on the context of the call a frame stands for. -/
def Frame.effect [Mul Real] (leaf : Expression Real PassiveReal Data Tape L)
    (f : Frame Real L) (data : Data) : Data :=
  (chainExpression leaf f.ops).calcGradient f.node data f.multiplier

end Chain

/-! ## Observing calls and object state -/

section Observation

variable {Real PassiveReal Data Tape A : Type} {b : Bindings Real}

/-- An operand that behaves like `E` for `getValue` and whose `calcGradient`
and `pushPassive` append the argument they are called with to a log.  The log
shows how often, and with what, a node calls its operand. -/
def Expression.logged (E : Expression Real PassiveReal Data Tape A) :
    Expression Real PassiveReal (List Real) (List PassiveReal) A :=
  Expression.mk E.getValue (fun _ log multiplier => log ++ [multiplier])
    (fun _ passive log => log ++ [passive])

/-- An expression that behaves like `E` and whose `calcGradient` first appends
the multiplier it is called with to the log and then does what that of `E`
does.  Wrapped around a node it records every call of the node's
`calcGradient`. -/
def Expression.traced {T : Type} (E : Expression Real PassiveReal (List Real) T A) :
    Expression Real PassiveReal (List Real) T A :=
  Expression.mk E.getValue (fun a log multiplier => E.calcGradient a (log ++ [multiplier]) multiplier)
    E.pushPassive

/-- The members of a chain in which every call of `calcGradient`, of a node or
of the leaf, is recorded: the leaf logs its calls, and every node is the node
of the source (`OP.expression`) with its calls recorded. -/
def chainTraced {L : Type} [Mul Real] (leaf : Expression Real PassiveReal Data Tape L) :
    (bs : List (Bindings Real)) →
      Expression Real PassiveReal (List Real) (List PassiveReal) (ChainType Real L bs)
  | [] => leaf.logged
  | c :: bs => (OP.expression c (chainTraced leaf bs)).traced

/-- A node together with the two stores its members can write to. -/
structure State (Real : Type) (b : Bindings Real) (A Data Tape : Type) where
  node : OP Real b A
  data : Data
  tape : Tape

/-- The public members of a node object. -/
inductive Operation (Real PassiveReal : Type) where
  | getValue : Operation Real PassiveReal
  | calcGradientNoMultiplier : Operation Real PassiveReal
  | calcGradient : Real → Operation Real PassiveReal
  | pushPassive : PassiveReal → Operation Real PassiveReal

/-- Calling a member on the node of a state.  All four members are declared
`const` (lines 110, 125, 134, 174) and `a_` is a `const A`, so the node is
handed on as it is; `data` and `tape` take what the member leaves there. -/
def Operation.run [Mul Real] (E : Expression Real PassiveReal Data Tape A) :
    Operation Real PassiveReal → State Real b A Data Tape → State Real b A Data Tape
  | .getValue, s => s
  | .calcGradientNoMultiplier, s =>
    State.mk s.node (OP.calcGradientNoMultiplier E s.node s.data) s.tape
  | .calcGradient multiplier, s =>
    State.mk s.node (OP.calcGradient E s.node s.data multiplier) s.tape
  | .pushPassive passive, s =>
    State.mk s.node s.data (OP.pushPassive E s.node passive s.tape)

/-- Calling a sequence of members, first to last. -/
def Operation.runAll [Mul Real] (E : Expression Real PassiveReal Data Tape A) :
    List (Operation Real PassiveReal) → State Real b A Data Tape → State Real b A Data Tape
  | [], s => s
  | op :: ops, s => Operation.runAll E ops (Operation.run E op s)

/-- The cached-result invariant of a node: `result_` is the primal call at the
operand's value. -/
def OP.Cached (E : Expression Real PassiveReal Data Tape A) (self : OP Real b A) : Prop :=
  self.result_ = b.PRIMAL_CALL (E.getValue self.a_)

/-- The multiplier a node forwards: the second argument of the call on line
126, `GRADIENT_FUNC(a_.getValue(), result_)*multiplier`. -/
def OP.forwarded [Mul Real] (E : Expression Real PassiveReal Data Tape A) (self : OP Real b A)
    (multiplier : Real) : Real :=
  b.GRADIENT_FUNC (E.getValue self.a_) self.result_ * multiplier

/-- An operand type that behaves like `S` for `getValue` and
`exchangeActiveType` and whose `evalAdjointOffset` appends the seed it is
called with to the adjoint buffer when it is called at the offsets `o` and
`p`, and does nothing when it is called at other offsets.  The buffer shows
how often, where and with what a node calls its operand. -/
def StaticExpression.loggedAt {IndexType NewGradientData B : Type}
    (S : StaticExpression Real PassiveReal IndexType NewGradientData B) (o p : Nat) :
    StaticExpression Real PassiveReal IndexType NewGradientData B :=
  StaticExpression.mk S.getValue
    (fun offset passiveOffset seed _ _ _ adjointValues =>
      if offset = o ∧ passiveOffset = p then adjointValues ++ [seed] else adjointValues)
    S.exchangeActiveType

instance OP.decidableCached [DecidableEq Real] (E : Expression Real PassiveReal Data Tape A)
    (self : OP Real b A) : Decidable (OP.Cached E self) :=
  inferInstanceAs (Decidable (self.result_ = b.PRIMAL_CALL (E.getValue self.a_)))

end Observation

/-! ## A leaf and two operations to evaluate the definitions on -/

section Sample

variable {Real PassiveReal NewGradientData : Type}

/-- Modelled from the spec: the active variable (leaf), which is not part of
`unaryExpression.tpp`: "a numeric value plus an identity (an index into the
external tape's storage)". -/
structure ActiveVariable (Real : Type) where
  value : Real
  index : Nat

/-- Modelled from the spec: a deposit into adjoint storage, which is not part
of `unaryExpression.tpp`: the contribution is added to the slot of the index
("accumulation, not overwrite"). -/
def accumulate [Add Real] : List Real → Nat → Real → List Real
  | [], _, _ => []
  | v :: vs, 0, c => (v + c) :: vs
  | v :: vs, i + 1, c => v :: accumulate vs i c

/-- Modelled from the spec: the members of the leaf, which are not part of
`unaryExpression.tpp`.  `getValue` is the leaf's value, `calcGradient` records
"the final scalar contribution into the tape/adjoint storage rather than
recursing further", and `pushPassive` records the constant. -/
def ActiveVariable.expression [Add Real] :
    Expression Real PassiveReal (List Real) (List PassiveReal) (ActiveVariable Real) :=
  Expression.mk (fun x => x.value) (fun x adjoint multiplier => accumulate adjoint x.index multiplier)
    (fun _ passive tape => tape ++ [passive])

/-- Modelled from the spec: the static members of the leaf type, which are not
part of `unaryExpression.tpp`.  `getValue` resolves the operand "by reading a
stored primal (leaf referencing an index)", `evalAdjointOffset` deposits the
seed at that index, and `exchangeActiveType` makes the leaf of the new type
from the recorded primal value. -/
def ActiveVariable.staticExpression [Add Real] [Zero Real] :
    StaticExpression Real PassiveReal Nat NewGradientData (ActiveVariable Real) :=
  StaticExpression.mk
    (fun offset _ indices _ primalValues => primalValues.getD (indices.getD offset 0) 0)
    (fun offset _ seed indices _ _ adjointValues =>
      accumulate adjointValues (indices.getD offset 0) seed)
    (fun activeOffset _ primalValues _ _ =>
      ActiveVariable.mk (primalValues.getD activeOffset 0) activeOffset)

/-- A binding of the names of the template to evaluate on: negation, with the
derivative `-1`. -/
def negation : Bindings Int :=
  Bindings.mk (fun a => -a) (fun a => -a) (fun _ _ => -1) (fun _ _ => -1)

/-- A binding of the names of the template to evaluate on: the square, with
the derivative `2 a`. -/
def square : Bindings Int :=
  Bindings.mk (fun a => a * a) (fun a => a * a) (fun a _ => 2 * a) (fun a _ => 2 * a)

/-- A binding of the names of the template to evaluate on, in which the name
`FUNCTION`, applied to a value of type `Real`, is not the function that
`PRIMAL_FUNCTION` calls: `FUNC(a) = a + 1`, `PRIMAL_CALL(a) = a + 2`. -/
def mismatch : Bindings Int :=
  Bindings.mk (fun a => a + 1) (fun a => a + 2) (fun _ _ => 1) (fun _ _ => 1)

/-- A binding of the names of the template to evaluate on: the square with the
names the header lists bound as for `square`, and `DERIVATIVE_FUNC`, which the
header does not list, bound to something else. -/
def squareUnlisted : Bindings Int :=
  Bindings.mk (fun a => a * a) (fun a => a * a) (fun a _ => 2 * a) (fun _ _ => 0)

/-- A number type to evaluate on that has the overflow and the special values
of IEEE arithmetic and no rounding: the integers of magnitude at most `1000`,
the two infinities and NaN. -/
inductive Overflowing where
  | finite : Int → Overflowing
  | infinity : Bool → Overflowing
  | nan : Overflowing
  deriving DecidableEq

/-- An integer as an `Overflowing` number: itself within the range, an
infinity of its sign beyond.  The flag of `infinity` is `true` for the
negative one. -/
def Overflowing.ofInt (v : Int) : Overflowing :=
  if v > 1000 then Overflowing.infinity false
  else if v < -1000 then Overflowing.infinity true
  else Overflowing.finite v

/-- The product, as in IEEE arithmetic: NaN is absorbing, a finite product
overflows to an infinity, `0 * infinity` is NaN, and the sign of an infinite
product is the product of the signs. -/
def Overflowing.mul : Overflowing → Overflowing → Overflowing
  | .nan, _ => .nan
  | _, .nan => .nan
  | .finite v, .finite w => Overflowing.ofInt (v * w)
  | .finite v, .infinity n => if v = 0 then .nan else .infinity (xor n (decide (v < 0)))
  | .infinity n, .finite v => if v = 0 then .nan else .infinity (xor n (decide (v < 0)))
  | .infinity n, .infinity k => .infinity (xor n k)

/-- The sum, as in IEEE arithmetic: NaN is absorbing, a finite sum overflows
to an infinity, and the sum of the two infinities is NaN. -/
def Overflowing.add : Overflowing → Overflowing → Overflowing
  | .nan, _ => .nan
  | _, .nan => .nan
  | .finite v, .finite w => Overflowing.ofInt (v + w)
  | .finite _, .infinity n => .infinity n
  | .infinity n, .finite _ => .infinity n
  | .infinity n, .infinity k => if n = k then .infinity n else .nan

instance Overflowing.instMul : Mul Overflowing := Mul.mk Overflowing.mul

instance Overflowing.instAdd : Add Overflowing := Add.mk Overflowing.add

instance Overflowing.instZero : Zero Overflowing := Zero.mk (Overflowing.finite 0)

instance Overflowing.instOne : One Overflowing := One.mk (Overflowing.finite 1)

/-- A binding of the names of the template to evaluate on: the square over
`Overflowing`, with the derivative `2 a`. -/
def squareOverflowing : Bindings Overflowing :=
  Bindings.mk (fun a => a * a) (fun a => a * a) (fun a _ => Overflowing.finite 2 * a)
    (fun a _ => Overflowing.finite 2 * a)

/-- A binding of the names of the template to evaluate on: the hundredfold
over `Overflowing`, with the derivative `100`. -/
def hundredfold : Bindings Overflowing :=
  Bindings.mk (fun a => Overflowing.finite 100 * a) (fun a => Overflowing.finite 100 * a)
    (fun _ _ => Overflowing.finite 100) (fun _ _ => Overflowing.finite 100)

/-- The members of a leaf over `Overflowing`. -/
def leafOverflowing :
    Expression Overflowing Overflowing (List Overflowing) (List Overflowing)
      (ActiveVariable Overflowing) :=
  ActiveVariable.expression

/-- The members of a leaf over the integers. -/
def leafMembers : Expression Int Int (List Int) (List Int) (ActiveVariable Int) :=
  ActiveVariable.expression

/-- The static members of the leaf type over the integers. -/
def leafStatic : StaticExpression Int Int Nat Int (ActiveVariable Int) :=
  ActiveVariable.staticExpression

end Sample

/-! ## Lemmas -/

section Lemmas

variable {Real PassiveReal Data Tape IndexType NewGradientData A B L LB : Type}
variable {b : Bindings Real}

theorem Operation.run_node [Mul Real] (E : Expression Real PassiveReal Data Tape A)
    (op : Operation Real PassiveReal) (s : State Real b A Data Tape) :
    (Operation.run E op s).node = s.node := by
  cases op <;> rfl

theorem Operation.runAll_node [Mul Real] (E : Expression Real PassiveReal Data Tape A)
    (ops : List (Operation Real PassiveReal)) (s : State Real b A Data Tape) :
    (Operation.runAll E ops s).node = s.node := by
  induction ops generalizing s with
  | nil => rfl
  | cons op ops ih =>
    show (Operation.runAll E ops (Operation.run E op s)).node = s.node
    rw [ih, Operation.run_node]

theorem chainBuild_getValue [Mul Real] (leaf : Expression Real PassiveReal Data Tape L) (x : L)
    (bs : List (Bindings Real)) :
    (chainExpression leaf bs).getValue (chainBuild leaf x bs) = chainValue bs (leaf.getValue x) := by
  induction bs with
  | nil => rfl
  | cons b bs ih =>
    show b.PRIMAL_CALL ((chainExpression leaf bs).getValue (chainBuild leaf x bs)) = _
    rw [ih]
    rfl

theorem chainBuild_calcGradient [CommMonoid Real] (leaf : Expression Real PassiveReal Data Tape L)
    (x : L) (bs : List (Bindings Real)) (data : Data) (m : Real) :
    (chainExpression leaf bs).calcGradient (chainBuild leaf x bs) data m =
      leaf.calcGradient x data (m * (chainPartials bs (leaf.getValue x)).prod) := by
  induction bs generalizing m with
  | nil =>
    show leaf.calcGradient x data m = leaf.calcGradient x data (m * ([] : List Real).prod)
    rw [List.prod_nil, mul_one]
  | cons b bs ih =>
    show (chainExpression leaf bs).calcGradient (chainBuild leaf x bs) data
        (b.GRADIENT_FUNC ((chainExpression leaf bs).getValue (chainBuild leaf x bs))
          (b.PRIMAL_CALL ((chainExpression leaf bs).getValue (chainBuild leaf x bs))) * m) = _
    rw [ih, chainBuild_getValue]
    show _ = leaf.calcGradient x data (m * (_ :: chainPartials bs (leaf.getValue x)).prod)
    rw [List.prod_cons]
    congr 1
    show _ = m * (b.GRADIENT_FUNC (chainValue bs (leaf.getValue x))
      (b.PRIMAL_CALL (chainValue bs (leaf.getValue x))) * _)
    rw [mul_comm (b.GRADIENT_FUNC _ _) m, mul_assoc]

theorem Frame.steps_chainBuild [CommMonoid Real] (leaf : Expression Real PassiveReal Data Tape L)
    (x : L) (bs : List (Bindings Real)) (m : Real) :
    Frame.steps leaf bs.length (Frame.mk bs (chainBuild leaf x bs) m) =
      some (Frame.mk [] x (m * (chainPartials bs (leaf.getValue x)).prod)) := by
  induction bs generalizing m with
  | nil =>
    show some _ = some _
    rw [show chainPartials ([] : List (Bindings Real)) (leaf.getValue x) = [] from rfl,
      List.prod_nil, mul_one]
    rfl
  | cons b bs ih =>
    show Frame.steps leaf bs.length (Frame.mk bs (chainBuild leaf x bs)
        (b.GRADIENT_FUNC ((chainExpression leaf bs).getValue (chainBuild leaf x bs))
          (b.PRIMAL_CALL ((chainExpression leaf bs).getValue (chainBuild leaf x bs))) * m)) = _
    rw [ih, chainBuild_getValue]
    show _ = some (Frame.mk [] x (m * (_ :: chainPartials bs (leaf.getValue x)).prod))
    rw [List.prod_cons]
    show some (Frame.mk [] x (_ * _)) = some (Frame.mk [] x (m *
      (b.GRADIENT_FUNC (chainValue bs (leaf.getValue x))
        (b.PRIMAL_CALL (chainValue bs (leaf.getValue x))) * _)))
    rw [mul_comm (b.GRADIENT_FUNC _ _) m, mul_assoc]

theorem Frame.effect_forward [Mul Real] (leaf : Expression Real PassiveReal Data Tape L)
    (f g : Frame Real L) (h : Frame.forward leaf f = some g) (data : Data) :
    Frame.effect leaf f data = Frame.effect leaf g data := by
  obtain ⟨ops, node, m⟩ := f
  cases ops with
  | nil => cases h
  | cons b bs =>
    cases h
    rfl

theorem Frame.steps_succ_chainBuild [CommMonoid Real]
    (leaf : Expression Real PassiveReal Data Tape L) (x : L) (bs : List (Bindings Real))
    (m : Real) :
    Frame.steps leaf (bs.length + 1) (Frame.mk bs (chainBuild leaf x bs) m) = none := by
  induction bs generalizing m with
  | nil => rfl
  | cons b bs ih => exact ih _

/-- The chain `square(negation(x))` at `x = 3`, index `0`: its value is `9`, and
`calcGradient(data, 1)` deposits `(2 * -3) * 1` and then `-1 * -6`, that is `6`,
in the slot of `x`, after two forwarding steps. -/
theorem chain_square_negation :
    (chainExpression leafMembers [square, negation]).getValue
        (chainBuild leafMembers (ActiveVariable.mk 3 0) [square, negation]) = 9
    ∧ (chainExpression leafMembers [square, negation]).calcGradient
        (chainBuild leafMembers (ActiveVariable.mk 3 0) [square, negation]) [0] 1 = [6]
    ∧ (Frame.steps leafMembers 2
        (Frame.mk [square, negation]
          (chainBuild leafMembers (ActiveVariable.mk 3 0) [square, negation]) 1)).map
        (fun f => (f.ops.length, f.multiplier)) = some (0, 6)
    ∧ OP.Cached leafMembers (FUNC square leafMembers (ActiveVariable.mk 3 0)) := by
  decide

theorem accumulate_accumulate {R : Type} [AddSemigroup R] (adjoint : List R) (i : Nat)
    (x y : R) : accumulate (accumulate adjoint i x) i y = accumulate adjoint i (x + y) := by
  induction adjoint generalizing i with
  | nil => rfl
  | cons v vs ih =>
    cases i with
    | zero =>
      show (v + x + y) :: vs = (v + (x + y)) :: vs
      rw [add_assoc]
    | succ j =>
      show v :: accumulate (accumulate vs j x) j y = v :: accumulate vs j (x + y)
      rw [ih]

theorem chainBuild_logged [Mul Real] (leaf : Expression Real PassiveReal Data Tape L) (x : L)
    (bs : List (Bindings Real)) : chainBuild leaf.logged x bs = chainBuild leaf x bs := by
  induction bs with
  | nil => rfl
  | cons c cs ih =>
    show OP.mk (chainBuild leaf.logged x cs)
        (c.PRIMAL_CALL ((chainExpression leaf.logged cs).getValue (chainBuild leaf.logged x cs))) =
      OP.mk (chainBuild leaf x cs)
        (c.PRIMAL_CALL ((chainExpression leaf cs).getValue (chainBuild leaf x cs)))
    rw [chainBuild_getValue, chainBuild_getValue, ih]
    rfl

theorem chainTraced_getValue [Mul Real] (leaf : Expression Real PassiveReal Data Tape L)
    (bs : List (Bindings Real)) (e : ChainType Real L bs) :
    (chainTraced leaf bs).getValue e = (chainExpression leaf bs).getValue e := by
  cases bs with
  | nil => rfl
  | cons c cs => rfl

theorem chainPartials_length (bs : List (Bindings Real)) (v0 : Real) :
    (chainPartials bs v0).length = bs.length := by
  induction bs with
  | nil => rfl
  | cons c cs ih =>
    show (chainPartials cs v0).length + 1 = cs.length + 1
    rw [ih]

theorem scanl_getLast? {R S : Type} (f : R → S → R) (l : List S) (a : R) :
    (List.scanl f a l).getLast? = some (List.foldl f a l) := by
  induction l generalizing a with
  | nil => rfl
  | cons g gs ih =>
    show (a :: List.scanl f (f a g) gs).getLast? = some (List.foldl f (f a g) gs)
    rw [← ih (f a g)]
    cases h : List.scanl f (f a g) gs with
    | nil =>
      have hlen := congrArg List.length h
      rw [List.length_scanl] at hlen
      cases hlen
    | cons y ys => rfl

theorem chainBuild_calcGradient_in_order [Mul Real]
    (leaf : Expression Real PassiveReal Data Tape L) (x : L) (bs : List (Bindings Real))
    (data : Data) (m : Real) :
    (chainExpression leaf bs).calcGradient (chainBuild leaf x bs) data m =
      leaf.calcGradient x data
        ((chainPartials bs (leaf.getValue x)).foldl (fun acc g => g * acc) m) := by
  induction bs generalizing m with
  | nil => rfl
  | cons c cs ih =>
    show (chainExpression leaf cs).calcGradient (chainBuild leaf x cs) data
        (c.GRADIENT_FUNC ((chainExpression leaf cs).getValue (chainBuild leaf x cs))
          (c.PRIMAL_CALL ((chainExpression leaf cs).getValue (chainBuild leaf x cs))) * m) = _
    rw [ih, chainBuild_getValue]
    rfl

theorem chainTraced_calcGradient [Mul Real] (leaf : Expression Real PassiveReal Data Tape L)
    (x : L) (bs : List (Bindings Real)) (log : List Real) (m : Real) :
    (chainTraced leaf bs).calcGradient (chainBuild leaf x bs) log m =
      log ++ List.scanl (fun acc g => g * acc) m (chainPartials bs (leaf.getValue x)) := by
  induction bs generalizing log m with
  | nil => rfl
  | cons c cs ih =>
    show (chainTraced leaf cs).calcGradient (chainBuild leaf x cs) (log ++ [m])
        (c.GRADIENT_FUNC ((chainTraced leaf cs).getValue (chainBuild leaf x cs))
          (c.PRIMAL_CALL ((chainExpression leaf cs).getValue (chainBuild leaf x cs))) * m) = _
    rw [ih, chainTraced_getValue, chainBuild_getValue, List.append_assoc]
    rfl

/-- The five-argument call of the offline evaluator agrees with the live node
when the operand's two paths agree and the names bound for the offline path
agree with those of the live path at the operand's value. -/
theorem OP.evalAdjointOffset_eq_calcGradient [Mul Real]
    (S : StaticExpression Real PassiveReal IndexType NewGradientData B)
    (E : Expression Real PassiveReal (List Real) Tape A) (a : A) (offset passiveOffset : Nat)
    (seed : Real) (indices : List IndexType) (passiveValues : List PassiveReal)
    (primalValues adjointValues : List Real)
    (hvalue : S.getValue offset passiveOffset indices passiveValues primalValues = E.getValue a)
    (hadjoint : ∀ m, S.evalAdjointOffset offset passiveOffset m indices passiveValues
      primalValues adjointValues = E.calcGradient a adjointValues m)
    (hfunc : b.FUNC (E.getValue a) = b.PRIMAL_CALL (E.getValue a))
    (hderivative : b.DERIVATIVE_FUNC (E.getValue a) (b.FUNC (E.getValue a)) =
      b.GRADIENT_FUNC (E.getValue a) (b.FUNC (E.getValue a))) :
    OP.evalAdjointOffset b S offset passiveOffset seed indices passiveValues primalValues
      adjointValues = OP.calcGradient E (FUNC b E a) adjointValues seed := by
  show S.evalAdjointOffset offset passiveOffset
      (b.DERIVATIVE_FUNC (S.getValue offset passiveOffset indices passiveValues primalValues)
        (b.FUNC (S.getValue offset passiveOffset indices passiveValues primalValues)) * seed)
      indices passiveValues primalValues adjointValues =
    E.calcGradient a adjointValues
      (b.GRADIENT_FUNC (E.getValue a) (b.PRIMAL_CALL (E.getValue a)) * seed)
  rw [hvalue, hadjoint, hderivative, hfunc]

end Lemmas

/-! ## The claims -/

section Claims

variable {Real PassiveReal Data Tape IndexType NewGradientData A B L LB : Type}
variable {b : Bindings Real}

/-- C1 (offline replay equivalence), evaluated at the seed `1` and the record of
the square of a leaf `x = 3` with index `0`: the live node deposits `6` in the
slot of `x`, and so does the five-argument call of `evalAdjointOffset` at the
offsets `0, 0`; `evalAdjoint` as written passes four arguments, without the
passive buffer, which is no call of `evalAdjointOffset`, and deposits
nothing. -/
theorem evalAdjoint_differs_from_calcGradient :
    OP.calcGradient leafMembers (FUNC square leafMembers (ActiveVariable.mk 3 0)) [0] 1 = [6]
    ∧ OP.evalAdjointOffset square leafStatic 0 0 1 [0] [] [3] [0] = [6]
    ∧ OP.evalAdjoint square leafStatic 1 [0] [] [3] [0] = none := by
  decide

/-- C2 (primal agreement of the two paths), evaluated at a leaf `x = 3` recorded
at index `0` and a binding whose `FUNCTION` on a `Real` is not what
`PRIMAL_FUNCTION` calls: the operand's offline `getValue` is the value `3` of
the live operand, the node's offline `getValue` applies `FUNC` and returns
`4`, and the live node's `getValue()` returns the cached `PRIMAL_CALL(3)`,
which is `5`. -/
theorem getValue_static_differs_from_getValue :
    leafStatic.getValue 0 0 [0] [] [3] = leafMembers.getValue (ActiveVariable.mk 3 0)
    ∧ OP.getValue_static mismatch leafStatic 0 0 [0] [] [3] = 4
    ∧ OP.getValue (FUNC mismatch leafMembers (ActiveVariable.mk 3 0)) = 5
    ∧ OP.getValue_static mismatch leafStatic 0 0 [0] [] [3] ≠
        OP.getValue (FUNC mismatch leafMembers (ActiveVariable.mk 3 0)) := by
  decide

/-- The two primal paths agree where the two names do: if the operand's
offline `getValue<offset, passiveOffset>` returns the value of the live
operand, and `FUNCTION` and `PRIMAL_FUNCTION` give the same result at that
value, then the node's offline `getValue` returns the cached result of the
live node. -/
theorem getValue_static_eq_getValue
    (b : Bindings Real) (S : StaticExpression Real PassiveReal IndexType NewGradientData B)
    (E : Expression Real PassiveReal Data Tape A) (a : A) (offset passiveOffset : Nat)
    (indices : List IndexType) (passiveValues : List PassiveReal) (primalValues : List Real)
    (hoperand : S.getValue offset passiveOffset indices passiveValues primalValues = E.getValue a)
    (hsame : b.FUNC (E.getValue a) = b.PRIMAL_CALL (E.getValue a)) :
    OP.getValue_static b S offset passiveOffset indices passiveValues primalValues =
      OP.getValue (FUNC b E a) := by
  show b.FUNC (S.getValue offset passiveOffset indices passiveValues primalValues) =
    b.PRIMAL_CALL (E.getValue a)
  rw [hoperand, hsame]

/-- The agreement of the two primal paths at the square of the leaf `x = 3`
recorded at index `0`, where the two names are bound to the same function. -/
theorem getValue_static_eq_getValue_witness :
    leafStatic.getValue 0 0 [0] [] [3] = leafMembers.getValue (ActiveVariable.mk 3 0)
    ∧ square.FUNC (leafMembers.getValue (ActiveVariable.mk 3 0)) =
        square.PRIMAL_CALL (leafMembers.getValue (ActiveVariable.mk 3 0))
    ∧ OP.getValue_static square leafStatic 0 0 [0] [] [3] =
        OP.getValue (FUNC square leafMembers (ActiveVariable.mk 3 0)) :=
  ⟨by decide, by decide,
    getValue_static_eq_getValue square leafStatic leafMembers (ActiveVariable.mk 3 0) 0 0 [0] []
      [3] (by decide) (by decide)⟩

/-- C3: `calcGradient(context, m)` of a node with operand `a_` and cached result
`result_` is exactly the call `a_.calcGradient(context, m')` with
`m' = m * df/da` at `(a_.getValue(), result_)`; an operand that logs its calls
is called once, with `m'`. -/
theorem calcGradient_forwards_once [CommMagma Real]
    (E : Expression Real PassiveReal Data Tape A) (self : OP Real b A) (data : Data) (m : Real) :
    OP.calcGradient E self data m =
      E.calcGradient self.a_ data (m * b.GRADIENT_FUNC (E.getValue self.a_) self.result_)
    ∧ ∀ log : List Real, OP.calcGradient E.logged self log m =
        log ++ [m * b.GRADIENT_FUNC (E.getValue self.a_) self.result_] := by
  refine ⟨?_, fun log => ?_⟩
  · show E.calcGradient self.a_ data (b.GRADIENT_FUNC (E.getValue self.a_) self.result_ * m) = _
    rw [mul_comm]
  · show log ++ [b.GRADIENT_FUNC (E.getValue self.a_) self.result_ * m] = _
    rw [mul_comm]

/-- C4: for every operand `a`, the node built by `FUNC(a)` holds `a` itself,
its result is the primal call at `a.getValue()`, computed by the constructor,
and `getValue()` returns that stored result and leaves the node and both
stores as they are. -/
theorem FUNC_stores_operand_and_result [Mul Real] (b : Bindings Real)
    (E : Expression Real PassiveReal Data Tape A) (a : A) :
    (FUNC b E a).a_ = a
    ∧ (FUNC b E a).result_ = b.PRIMAL_CALL (E.getValue a)
    ∧ OP.getValue (FUNC b E a) = (FUNC b E a).result_
    ∧ ∀ (data : Data) (tape : Tape),
        Operation.run E Operation.getValue (State.mk (FUNC b E a) data tape) =
          State.mk (FUNC b E a) data tape :=
  ⟨rfl, rfl, rfl, fun _ _ => rfl⟩

/-- C5: `calcGradient(context)` has the effect of `calcGradient(context, 1)`; an
operand that logs its calls receives `df/da` at `(a_.getValue(), result_)` from
either form. -/
theorem calcGradientNoMultiplier_eq_calcGradient_one [MulOneClass Real]
    (E : Expression Real PassiveReal Data Tape A) (self : OP Real b A) (data : Data) :
    OP.calcGradientNoMultiplier E self data = OP.calcGradient E self data 1
    ∧ ∀ log : List Real,
        OP.calcGradientNoMultiplier E.logged self log =
          log ++ [b.GRADIENT_FUNC (E.getValue self.a_) self.result_]
        ∧ OP.calcGradient E.logged self log 1 =
          log ++ [b.GRADIENT_FUNC (E.getValue self.a_) self.result_] := by
  refine ⟨?_, fun log => ⟨rfl, ?_⟩⟩
  · show _ = E.calcGradient self.a_ data (b.GRADIENT_FUNC (E.getValue self.a_) self.result_ * 1)
    rw [mul_one]
    rfl
  · show log ++ [b.GRADIENT_FUNC (E.getValue self.a_) self.result_ * 1] = _
    rw [mul_one]

/-- C6 (cached-result invariant): the node built over `a` satisfies
`result_ = PRIMAL_CALL(a_.getValue())`; no member changes the operand or the
result of the node it is called on; and after any sequence of calls of
`getValue`, the two forms of `calcGradient` and `pushPassive` the node is the
one that was built and still satisfies the invariant. -/
theorem cached_result_invariant [Mul Real] (b : Bindings Real)
    (E : Expression Real PassiveReal Data Tape A) (a : A)
    (ops : List (Operation Real PassiveReal)) (data : Data) (tape : Tape) :
    OP.Cached E (FUNC b E a)
    ∧ (∀ (op : Operation Real PassiveReal) (s : State Real b A Data Tape),
        (Operation.run E op s).node.a_ = s.node.a_
        ∧ (Operation.run E op s).node.result_ = s.node.result_)
    ∧ (Operation.runAll E ops (State.mk (FUNC b E a) data tape)).node = FUNC b E a
    ∧ OP.Cached E (Operation.runAll E ops (State.mk (FUNC b E a) data tape)).node := by
  have hbuilt : OP.Cached E (FUNC b E a) := rfl
  refine ⟨hbuilt, fun op s => ?_, Operation.runAll_node E ops _, ?_⟩
  · rw [Operation.run_node]
    exact ⟨rfl, rfl⟩
  · rw [Operation.runAll_node]
    exact hbuilt

/-- C7: `pushPassive(p)` of a node has exactly the effect of
`a_.pushPassive(p)`; an operand that logs its calls is called once, with `p`
itself; and the node is not altered. -/
theorem pushPassive_forwards [Mul Real] (E : Expression Real PassiveReal Data Tape A)
    (self : OP Real b A) (p : PassiveReal) (data : Data) (tape : Tape) :
    OP.pushPassive E self p tape = E.pushPassive self.a_ p tape
    ∧ (∀ log : List PassiveReal, OP.pushPassive E.logged self p log = log ++ [p])
    ∧ (Operation.run E (Operation.pushPassive p) (State.mk self data tape)).node = self :=
  ⟨rfl, fun _ => rfl, rfl⟩

/-- C8 (`exchangeActiveType` preserves the topology): the exchanged node is
the node of the same operation built over the operand's `exchangeActiveType`
at the same offsets and buffers, its cached result is the primal call at the
exchanged operand's value, and a chain of nodes over a leaf type is exchanged
into the chain of the same operations, in the same order, over the exchanged
leaf. -/
theorem exchangeActiveType_preserves_topology [Mul Real] (b : Bindings Real)
    (S : StaticExpression Real PassiveReal IndexType NewGradientData B)
    (EB : Expression Real PassiveReal Data Tape B)
    (leafS : StaticExpression Real PassiveReal IndexType NewGradientData LB)
    (leafB : Expression Real PassiveReal Data Tape LB) (bs : List (Bindings Real))
    (activeOffset passiveOffset : Nat) (primalValues : List Real)
    (gradientData : List NewGradientData) (passiveValues : List PassiveReal) :
    OP.exchangeActiveType b S EB activeOffset passiveOffset primalValues gradientData
        passiveValues =
      FUNC b EB (S.exchangeActiveType activeOffset passiveOffset primalValues gradientData
        passiveValues)
    ∧ (OP.exchangeActiveType b S EB activeOffset passiveOffset primalValues gradientData
        passiveValues).a_ =
      S.exchangeActiveType activeOffset passiveOffset primalValues gradientData passiveValues
    ∧ (OP.exchangeActiveType b S EB activeOffset passiveOffset primalValues gradientData
        passiveValues).result_ =
      b.PRIMAL_CALL (EB.getValue (S.exchangeActiveType activeOffset passiveOffset primalValues
        gradientData passiveValues))
    ∧ (chainStatic leafS leafB bs).exchangeActiveType activeOffset passiveOffset primalValues
        gradientData passiveValues =
      chainBuild leafB (leafS.exchangeActiveType activeOffset passiveOffset primalValues
        gradientData passiveValues) bs := by
  refine ⟨rfl, rfl, rfl, ?_⟩
  induction bs with
  | nil => rfl
  | cons c cs ih =>
    show OP.construct c (chainExpression leafB cs)
        ((chainStatic leafS leafB cs).exchangeActiveType activeOffset passiveOffset primalValues
          gradientData passiveValues) = _
    rw [ih]
    rfl

/-- The chain rule where the product of `Real` is associative and commutative
and has the unit `1`: for a chain `f_n(... f_1(x) ...)` with `v_0 = x.value`
and `v_i = f_i(v_(i-1))`, `calcGradient(context, m)` of the outermost node is
exactly the leaf's `calcGradient` with `m` times the product of the `df_i/da`
at `(v_(i-1), v_i)`; a leaf that logs its calls is called once, with that
multiplier; and the frames reach the leaf after `n` forwarding steps. -/
theorem chain_rule [CommMonoid Real] (leaf : Expression Real PassiveReal Data Tape L) (x : L)
    (bs : List (Bindings Real)) (data : Data) (m : Real) :
    (chainExpression leaf bs).calcGradient (chainBuild leaf x bs) data m =
      leaf.calcGradient x data (m * (chainPartials bs (leaf.getValue x)).prod)
    ∧ (∀ log : List Real,
        (chainExpression leaf.logged bs).calcGradient (chainBuild leaf.logged x bs) log m =
          log ++ [m * (chainPartials bs (leaf.getValue x)).prod])
    ∧ Frame.steps leaf bs.length (Frame.mk bs (chainBuild leaf x bs) m) =
        some (Frame.mk [] x (m * (chainPartials bs (leaf.getValue x)).prod))
    ∧ Frame.steps leaf (bs.length + 1) (Frame.mk bs (chainBuild leaf x bs) m) = none :=
  ⟨chainBuild_calcGradient leaf x bs data m,
    fun log => chainBuild_calcGradient leaf.logged x bs log m,
    Frame.steps_chainBuild leaf x bs m, Frame.steps_succ_chainBuild leaf x bs m⟩

/-- The offsets of one step of the offline evaluator: `evalAdjointOffset` at
`offset` and `passiveOffset` is exactly the operand's `evalAdjointOffset` at
the same `offset` and `passiveOffset` (the node consumes no buffer entry),
with the seed `s * DERIVATIVE_FUNC(aPrimal, FUNC(aPrimal))` of line 170, where
`aPrimal` is the operand's offline `getValue` at the same offsets; an operand
that logs its calls at the offsets `o`, `p` is called once if these are the
node's offsets and not at all otherwise. -/
theorem evalAdjointOffset_step [CommMagma Real] (b : Bindings Real)
    (S : StaticExpression Real PassiveReal IndexType NewGradientData B)
    (offset passiveOffset : Nat) (s : Real) (indices : List IndexType)
    (passiveValues : List PassiveReal) (primalValues adjointValues : List Real) :
    OP.evalAdjointOffset b S offset passiveOffset s indices passiveValues primalValues
        adjointValues =
      S.evalAdjointOffset offset passiveOffset
        (s * b.DERIVATIVE_FUNC
          (S.getValue offset passiveOffset indices passiveValues primalValues)
          (b.FUNC (S.getValue offset passiveOffset indices passiveValues primalValues)))
        indices passiveValues primalValues adjointValues
    ∧ ∀ o p : Nat,
        OP.evalAdjointOffset b (S.loggedAt o p) offset passiveOffset s indices passiveValues
            primalValues adjointValues =
          if offset = o ∧ passiveOffset = p then
            adjointValues ++ [s * b.DERIVATIVE_FUNC
              (S.getValue offset passiveOffset indices passiveValues primalValues)
              (b.FUNC (S.getValue offset passiveOffset indices passiveValues primalValues))]
          else adjointValues := by
  refine ⟨?_, fun o p => ?_⟩
  · show S.evalAdjointOffset offset passiveOffset
        (b.DERIVATIVE_FUNC (S.getValue offset passiveOffset indices passiveValues primalValues)
          (b.FUNC (S.getValue offset passiveOffset indices passiveValues primalValues)) * s)
        indices passiveValues primalValues adjointValues = _
    rw [mul_comm]
  · show (if offset = o ∧ passiveOffset = p then
        adjointValues ++ [b.DERIVATIVE_FUNC
          (S.getValue offset passiveOffset indices passiveValues primalValues)
          (b.FUNC (S.getValue offset passiveOffset indices passiveValues primalValues)) * s]
      else adjointValues) = _
    rw [mul_comm]

/-- C12 (`evalAdjoint` as the entry point), evaluated at the seed `2` and the
record of the negation of a leaf with index `1` and primal value `4`, with the
passive buffer `[7]`: the call of `evalAdjointOffset<IndexType, 0, 0>` with the
seed and the four buffers, each in its position, deposits `-2` in slot `1`;
`evalAdjoint` hands on the seed and three buffers, leaves the passive buffer
out, and so has no such effect. -/
theorem evalAdjoint_leaves_out_passiveValues :
    OP.evalAdjointOffset_call negation leafStatic 0 0
        [Argument.real 2, Argument.indexBuffer [1], Argument.passiveBuffer [7],
          Argument.realBuffer [0, 4], Argument.realBuffer [0, 0]] = some [0, -2]
    ∧ OP.evalAdjointOffset negation leafStatic 0 0 2 [1] [7] [0, 4] [0, 0] = [0, -2]
    ∧ OP.evalAdjoint negation leafStatic 2 [1] [7] [0, 4] [0, 0] = none := by
  decide

/-- C13 as amended (the forwarded multiplier is linear where the arithmetic of
`Real` is exact): over a `Real` whose sum and product form a commutative
semiring, the node calls its operand with `forwarded(m)`, which is additive,
commutes with scalars and sends `0` to `0`; hence over an operand that
accumulates, `calcGradient(context, m1)` followed by
`calcGradient(context, m2)` leaves what one call
`calcGradient(context, m1 + m2)` leaves. -/
theorem forwarded_linear [CommSemiring Real] (E : Expression Real PassiveReal Data Tape A)
    (self : OP Real b A)
    (haccumulate : ∀ (data : Data) (x y : Real),
      E.calcGradient self.a_ (E.calcGradient self.a_ data x) y =
        E.calcGradient self.a_ data (x + y))
    (data : Data) (m1 m2 c : Real) :
    OP.calcGradient E self data m1 = E.calcGradient self.a_ data (OP.forwarded E self m1)
    ∧ OP.forwarded E self (m1 + m2) = OP.forwarded E self m1 + OP.forwarded E self m2
    ∧ OP.forwarded E self (c * m1) = c * OP.forwarded E self m1
    ∧ OP.forwarded E self 0 = 0
    ∧ OP.calcGradient E self (OP.calcGradient E self data m1) m2 =
        OP.calcGradient E self data (m1 + m2) := by
  refine ⟨rfl, ?_, ?_, ?_, ?_⟩
  · show b.GRADIENT_FUNC (E.getValue self.a_) self.result_ * (m1 + m2) =
      b.GRADIENT_FUNC (E.getValue self.a_) self.result_ * m1 +
        b.GRADIENT_FUNC (E.getValue self.a_) self.result_ * m2
    rw [mul_add]
  · show b.GRADIENT_FUNC (E.getValue self.a_) self.result_ * (c * m1) =
      c * (b.GRADIENT_FUNC (E.getValue self.a_) self.result_ * m1)
    rw [mul_left_comm]
  · show b.GRADIENT_FUNC (E.getValue self.a_) self.result_ * 0 = 0
    rw [mul_zero]
  · show E.calcGradient self.a_
        (E.calcGradient self.a_ data (b.GRADIENT_FUNC (E.getValue self.a_) self.result_ * m1))
        (b.GRADIENT_FUNC (E.getValue self.a_) self.result_ * m2) =
      E.calcGradient self.a_ data
        (b.GRADIENT_FUNC (E.getValue self.a_) self.result_ * (m1 + m2))
    rw [haccumulate, mul_add]

/-- The theorem of C13 as amended at the square of the leaf `x = 3` with index `0`, the
adjoint `[0]`, the multipliers `1` and `2` and the scalar `5`. -/
theorem forwarded_linear_witness :
    (∀ (data : List Int) (x y : Int),
      leafMembers.calcGradient (ActiveVariable.mk 3 0)
          (leafMembers.calcGradient (ActiveVariable.mk 3 0) data x) y =
        leafMembers.calcGradient (ActiveVariable.mk 3 0) data (x + y))
    ∧ OP.calcGradient leafMembers (FUNC square leafMembers (ActiveVariable.mk 3 0)) [0] 1 =
        leafMembers.calcGradient (ActiveVariable.mk 3 0) [0]
          (OP.forwarded leafMembers (FUNC square leafMembers (ActiveVariable.mk 3 0)) 1)
    ∧ OP.forwarded leafMembers (FUNC square leafMembers (ActiveVariable.mk 3 0)) (1 + 2) =
        OP.forwarded leafMembers (FUNC square leafMembers (ActiveVariable.mk 3 0)) 1 +
          OP.forwarded leafMembers (FUNC square leafMembers (ActiveVariable.mk 3 0)) 2
    ∧ OP.forwarded leafMembers (FUNC square leafMembers (ActiveVariable.mk 3 0)) (5 * 1) =
        5 * OP.forwarded leafMembers (FUNC square leafMembers (ActiveVariable.mk 3 0)) 1
    ∧ OP.forwarded leafMembers (FUNC square leafMembers (ActiveVariable.mk 3 0)) 0 = 0
    ∧ OP.calcGradient leafMembers (FUNC square leafMembers (ActiveVariable.mk 3 0))
          (OP.calcGradient leafMembers (FUNC square leafMembers (ActiveVariable.mk 3 0)) [0] 1)
          2 =
        OP.calcGradient leafMembers (FUNC square leafMembers (ActiveVariable.mk 3 0)) [0]
          (1 + 2) :=
  ⟨fun data x y => accumulate_accumulate data 0 x y,
    forwarded_linear leafMembers (FUNC square leafMembers (ActiveVariable.mk 3 0))
      (fun data x y => accumulate_accumulate data 0 x y) [0] 1 2 5⟩

/-- C14: `evalAdjoint2(gradient, seed, primalValues, gradientData, passiveValues)`
has exactly the effect of `calcGradient(gradient, seed)` on the node returned
by `exchangeActiveType` at the offsets `0, 0` over the same buffers: the
rebuilt operand's `calcGradient` is called with `seed * df/da(v, f(v))`, where
`v` is the rebuilt operand's value; a rebuilt operand that logs its calls is
called once, with that value. -/
theorem evalAdjoint2_eq_calcGradient_exchanged [CommMagma Real] (b : Bindings Real)
    (S : StaticExpression Real PassiveReal IndexType NewGradientData B)
    (EB : Expression Real PassiveReal Data Tape B) (gradient : Data) (seed : Real)
    (primalValues : List Real) (gradientData : List NewGradientData)
    (passiveValues : List PassiveReal) :
    OP.evalAdjoint2 b S EB gradient seed primalValues gradientData passiveValues =
      OP.calcGradient EB
        (OP.exchangeActiveType b S EB 0 0 primalValues gradientData passiveValues) gradient seed
    ∧ OP.evalAdjoint2 b S EB gradient seed primalValues gradientData passiveValues =
      EB.calcGradient (S.exchangeActiveType 0 0 primalValues gradientData passiveValues)
        gradient
        (seed * b.GRADIENT_FUNC
          (EB.getValue (S.exchangeActiveType 0 0 primalValues gradientData passiveValues))
          (b.PRIMAL_CALL
            (EB.getValue (S.exchangeActiveType 0 0 primalValues gradientData passiveValues))))
    ∧ ∀ log : List Real,
        OP.evalAdjoint2 b S EB.logged log seed primalValues gradientData passiveValues =
          log ++ [seed * b.GRADIENT_FUNC
            (EB.getValue (S.exchangeActiveType 0 0 primalValues gradientData passiveValues))
            (b.PRIMAL_CALL
              (EB.getValue (S.exchangeActiveType 0 0 primalValues gradientData passiveValues)))] := by
  refine ⟨rfl, ?_, fun log => ?_⟩
  · show EB.calcGradient (S.exchangeActiveType 0 0 primalValues gradientData passiveValues)
        gradient
        (b.GRADIENT_FUNC
          (EB.getValue (S.exchangeActiveType 0 0 primalValues gradientData passiveValues))
          (b.PRIMAL_CALL
            (EB.getValue (S.exchangeActiveType 0 0 primalValues gradientData passiveValues))) *
          seed) = _
    rw [mul_comm]
  · show log ++ [b.GRADIENT_FUNC
          (EB.getValue (S.exchangeActiveType 0 0 primalValues gradientData passiveValues))
          (b.PRIMAL_CALL
            (EB.getValue (S.exchangeActiveType 0 0 primalValues gradientData passiveValues))) *
          seed] = _
    rw [mul_comm]

/-- C10, the claim as stated, refuted at the chain
`hundredfold(squareOverflowing(x))` over the leaf `x = 0` with `m = 100`: the
local derivatives are `100` and `0`, so `m` times their product is `0`; the
outer node forwards `100 * 100`, which overflows to infinity, the inner node
forwards `0 * infinity`, and the leaf is called with NaN. -/
theorem chain_rule_product_refuted :
    chainPartials [hundredfold, squareOverflowing]
        (leafOverflowing.getValue (ActiveVariable.mk (Overflowing.finite 0) 0)) =
      [Overflowing.finite 100, Overflowing.finite 0]
    ∧ Overflowing.finite 100 *
        (chainPartials [hundredfold, squareOverflowing]
          (leafOverflowing.getValue (ActiveVariable.mk (Overflowing.finite 0) 0))).prod =
      Overflowing.finite 0
    ∧ (chainExpression leafOverflowing.logged [hundredfold, squareOverflowing]).calcGradient
        (chainBuild leafOverflowing (ActiveVariable.mk (Overflowing.finite 0) 0)
          [hundredfold, squareOverflowing]) [] (Overflowing.finite 100) = [Overflowing.nan]
    ∧ (chainExpression leafOverflowing.logged [hundredfold, squareOverflowing]).calcGradient
        (chainBuild leafOverflowing (ActiveVariable.mk (Overflowing.finite 0) 0)
          [hundredfold, squareOverflowing]) [] (Overflowing.finite 100) ≠
      [Overflowing.finite 100 *
        (chainPartials [hundredfold, squareOverflowing]
          (leafOverflowing.getValue (ActiveVariable.mk (Overflowing.finite 0) 0))).prod] := by
  decide

/-- C10 as amended (chain rule in the order of the code): for a chain
`f_n(... f_1(x) ...)` with `v_0 = x.value`, `v_i = f_i(v_(i-1))` and
`g_i = df_i/da` at `(v_(i-1), v_i)`, `calcGradient(context, m)` of the
outermost node is exactly the leaf's `calcGradient` with
`g_1 * (... * (g_n * m))`; a leaf that logs its calls is called once, with
that multiplier; and the calls of `calcGradient` it causes are, in this order,
those of the `n` nodes, with `m`, `g_n * m`, ..., and that of the leaf: `n + 1`
calls, `n` forwarding steps. -/
theorem chain_rule_in_order [Mul Real] (leaf : Expression Real PassiveReal Data Tape L) (x : L)
    (bs : List (Bindings Real)) (data : Data) (m : Real) :
    (chainExpression leaf bs).calcGradient (chainBuild leaf x bs) data m =
      leaf.calcGradient x data
        ((chainPartials bs (leaf.getValue x)).foldl (fun acc g => g * acc) m)
    ∧ (∀ log : List Real,
        (chainExpression leaf.logged bs).calcGradient (chainBuild leaf x bs) log m =
          log ++ [(chainPartials bs (leaf.getValue x)).foldl (fun acc g => g * acc) m])
    ∧ (∀ log : List Real,
        (chainTraced leaf bs).calcGradient (chainBuild leaf x bs) log m =
          log ++ List.scanl (fun acc g => g * acc) m (chainPartials bs (leaf.getValue x)))
    ∧ (List.scanl (fun acc g => g * acc) m (chainPartials bs (leaf.getValue x))).length =
        bs.length + 1
    ∧ (List.scanl (fun acc g => g * acc) m (chainPartials bs (leaf.getValue x))).getLast? =
        some ((chainPartials bs (leaf.getValue x)).foldl (fun acc g => g * acc) m) := by
  refine ⟨chainBuild_calcGradient_in_order leaf x bs data m, fun log => ?_,
    fun log => chainTraced_calcGradient leaf x bs log m, ?_, scanl_getLast? _ _ _⟩
  · rw [← chainBuild_logged]
    exact chainBuild_calcGradient_in_order leaf.logged x bs log m
  · rw [List.length_scanl, chainPartials_length]

/-- C11 (one step of the offline evaluator), evaluated at the seed `1` and the
record of the square of a leaf `x = 3` with index `0`, with `DERIVATIVE_FUNC`
bound to something other than the derivative `gradNAME` of the node: the
operand's offline value is `3`, the claim's seed `1 * df/da(3, f(3))` is `6`
and the operand called with it deposits `6`, as the live node does; the
offline step takes its factor from `DERIVATIVE_FUNC` and deposits `0`. -/
theorem evalAdjointOffset_uses_unlisted_derivative :
    leafStatic.getValue 0 0 [0] [] [3] = 3
    ∧ leafStatic.evalAdjointOffset 0 0
        (1 * squareUnlisted.GRADIENT_FUNC 3 (squareUnlisted.FUNC 3)) [0] [] [3] [0] = [6]
    ∧ OP.calcGradient leafMembers (FUNC squareUnlisted leafMembers (ActiveVariable.mk 3 0)) [0]
        1 = [6]
    ∧ OP.evalAdjointOffset squareUnlisted leafStatic 0 0 1 [0] [] [3] [0] = [0] := by
  decide

/-- C13, the claim as stated, refuted over `Overflowing`.  The node
`squareOverflowing(x)` at `x = 1000` has the derivative `2 * 1000`, which is
infinite, and forwards NaN for the multiplier `0`.  The node `hundredfold(x)`
has the derivative `100`: for `m1 = 100` and `m2 = -100` it forwards `0` for
`m1 + m2` and two infinities of opposite sign for `m1` and `m2`, whose sum is
NaN, and two calls leave NaN in the slot of `x` where one call leaves `0`. -/
theorem forwarded_linear_refuted :
    OP.forwarded leafOverflowing
        (FUNC squareOverflowing leafOverflowing (ActiveVariable.mk (Overflowing.finite 1000) 0))
        0 ≠ 0
    ∧ OP.forwarded leafOverflowing
        (FUNC hundredfold leafOverflowing (ActiveVariable.mk (Overflowing.finite 1) 0))
        (Overflowing.finite 100 + Overflowing.finite (-100)) ≠
      OP.forwarded leafOverflowing
          (FUNC hundredfold leafOverflowing (ActiveVariable.mk (Overflowing.finite 1) 0))
          (Overflowing.finite 100) +
        OP.forwarded leafOverflowing
          (FUNC hundredfold leafOverflowing (ActiveVariable.mk (Overflowing.finite 1) 0))
          (Overflowing.finite (-100))
    ∧ OP.calcGradient leafOverflowing
        (FUNC hundredfold leafOverflowing (ActiveVariable.mk (Overflowing.finite 1) 0))
        (OP.calcGradient leafOverflowing
          (FUNC hundredfold leafOverflowing (ActiveVariable.mk (Overflowing.finite 1) 0))
          [0] (Overflowing.finite 100))
        (Overflowing.finite (-100)) = [Overflowing.nan]
    ∧ OP.calcGradient leafOverflowing
        (FUNC hundredfold leafOverflowing (ActiveVariable.mk (Overflowing.finite 1) 0))
        [0] (Overflowing.finite 100 + Overflowing.finite (-100)) = [Overflowing.finite 0] := by
  decide

end Claims

end codi
